import Mathlib

/-!
# Verification of the SciVizz analysis engine (`src/processing.py`)

Shallow embedding of the three analysis classes of `src/processing.py`:

* `LandcoverAnalyzer._prepare_data` — normalizes a frequency histogram into
  labels / percentages / colors for a pie chart;
* `LandcoverComparison` — per-category percent change between two histograms
  and the filtered bar-chart series;
* `CarbonStockAnalyzer.categorize_counts` / `get_stackbar_chart_plotly` —
  threshold bucketing of carbon-stock-change keys and bucket percentages.

Python dictionaries are modelled as insertion-ordered association lists with
`String` keys (Python dict keys are unique and iteration follows insertion
order); numeric values are modelled as `ℚ`.  Python exceptions
(`KeyError`, `ZeroDivisionError`, `ValueError` from `float(...)`) are
modelled by the `Except PyErr` monad: an uncaught exception in the Python
code is an `Except.error` value here.
-/

deriving instance DecidableEq for Except

namespace SciVizz

/-- Python exceptions that the analysis code in `processing.py` can raise:
`KeyError` from a dict subscript, `ZeroDivisionError` from `/`, and
`ValueError` from `float(...)` on a non-numeric string. -/
inductive PyErr where
  | keyError (key : String)
  | zeroDivisionError
  | valueError (s : String)
deriving DecidableEq

/-- A frequency histogram: category code → pixel count, in insertion order. -/
abbrev Hist := List (String × ℚ)

/-- A metadata dict: category code → display name, or code → color hex. -/
abbrev StrMap := List (String × String)

/-- Python `d.get(k)` / `k in d`: first binding of `k` in the dict. -/
def dget? {α : Type} (m : List (String × α)) (k : String) : Option α :=
  match m with
  | [] => none
  | (k', v) :: rest => if k' = k then some v else dget? rest k

/-- Python `d[k]`: the binding of `k`, or a `KeyError`. -/
def dget {α : Type} (m : List (String × α)) (k : String) : Except PyErr α :=
  match dget? m k with
  | some v => .ok v
  | none => .error (.keyError k)

/-- Python `d.get(k, default)`. -/
def dgetD {α : Type} (m : List (String × α)) (k : String) (d : α) : α :=
  (dget? m k).getD d

/-- The key list of a dict (Python `list(d.keys())`). -/
def keys {α : Type} (m : List (String × α)) : List String :=
  m.map Prod.fst

/-! ## `LandcoverAnalyzer._prepare_data` -/

/-- The list comprehension `[m[key] for key in data.keys()]` used for both
`labels` and `colors` in `_prepare_data`: looks every histogram key up in the
metadata dict `m`, raising `KeyError` at the first unmapped key. -/
def mapLookup (m : StrMap) : Hist → Except PyErr (List String)
  | [] => pure []
  | p :: rest =>
    match dget? m p.1 with
    | some v => do
        let tail ← mapLookup m rest
        pure (v :: tail)
    | none => .error (.keyError p.1)

/-- The list comprehension `[100 * value / total for value in values]`:
raises `ZeroDivisionError` at the first element when `total` is zero
(and hence never raises on an empty list, exactly as in Python). -/
def mapPercent (total : ℚ) : List ℚ → Except PyErr (List ℚ)
  | [] => pure []
  | v :: rest =>
    if total = 0 then .error .zeroDivisionError
    else do
      let tail ← mapPercent total rest
      pure ((100 * v / total) :: tail)

/-- Embedding of `LandcoverAnalyzer._prepare_data` (`processing.py` lines 66–83):
`total = sum(values)`, then labels, colors and percentages in that
evaluation order, returning `(labels, percentages, colors)`. -/
def prepare_data (data : Hist) (class_names class_colors : StrMap) :
    Except PyErr (List String × List ℚ × List String) := do
  let values := data.map Prod.snd
  let total := values.sum
  let labels ← mapLookup class_names data
  let colors ← mapLookup class_colors data
  let percentages ← mapPercent total values
  pure (labels, percentages, colors)

/-! ## `LandcoverComparison` -/

/-- The state built by `LandcoverComparison.__init__`. -/
structure LandcoverComparison where
  landcover_2000 : Hist
  landcover_2018 : Hist
  categories : List String
  category_colors : StrMap
  changes : List (String × ℚ)
  class_names : StrMap
deriving DecidableEq

/-- Embedding of `LandcoverComparison.calculate_change` (lines 151–156):
`(landcover_2018[category] - landcover_2000[category]) / landcover_2000[category] * 100`.
The 2018 subscript is evaluated first; a zero baseline raises
`ZeroDivisionError`. -/
def calculate_change (lc2000 lc2018 : Hist) (category : String) :
    Except PyErr ℚ := do
  let comp ← dget lc2018 category
  let base ← dget lc2000 category
  if base = 0 then .error .zeroDivisionError
  else pure ((comp - base) / base * 100)

/-- The dict comprehension
`{category: self.calculate_change(category) for category in self.categories}`,
evaluated in category order, stopping at the first exception. -/
def computeChanges (lc2000 lc2018 : Hist) :
    List String → Except PyErr (List (String × ℚ))
  | [] => pure []
  | c :: rest => do
      let v ← calculate_change lc2000 lc2018 c
      let tail ← computeChanges lc2000 lc2018 rest
      pure ((c, v) :: tail)

/-- Embedding of `LandcoverComparison.__init__` (lines 143–149): stores both histograms,
takes `categories = list(data_2000.keys())` and eagerly computes the change
dict; any exception from `calculate_change` propagates out of the
constructor. -/
def mkLandcoverComparison (data_2000 data_2018 : Hist)
    (category_colors class_names : StrMap) :
    Except PyErr LandcoverComparison := do
  let categories := keys data_2000
  let changes ← computeChanges data_2000 data_2018 categories
  pure ⟨data_2000, data_2018, categories, category_colors, changes, class_names⟩

/-- The list comprehension
`[category for category in self.categories if self.changes[category] != 0]`
of `generate_comparison_chart` (lines 160–162). -/
def filterNonZero (changes : List (String × ℚ)) :
    List String → Except PyErr (List String)
  | [] => pure []
  | c :: rest => do
      let v ← dget changes c
      let tail ← filterNonZero changes rest
      if v ≠ 0 then pure (c :: tail) else pure tail

/-- The comprehension `[m[category] for category in cats]` over an arbitrary dict, used for the
bar heights (`self.changes[...]`) and colors (`self.category_colors[...]`). -/
def mapDget {α : Type} (m : List (String × α)) :
    List String → Except PyErr (List α)
  | [] => pure []
  | c :: rest => do
      let v ← dget m c
      let tail ← mapDget m rest
      pure (v :: tail)

/-- The data content of the Plotly bar trace built by
`generate_comparison_chart`: category axis labels, bar heights, bar colors. -/
structure ComparisonChart where
  xlabels : List String
  yvalues : List ℚ
  colors : List String
deriving DecidableEq

/-- Embedding of `LandcoverComparison.generate_comparison_chart` (lines 158–203): filters
out categories whose stored change is 0, then builds the x labels via
`class_names.get(category, category)`, the y values from `changes` and the
colors via `category_colors[category]`. -/
def generate_comparison_chart (lc : LandcoverComparison) :
    Except PyErr ComparisonChart := do
  let nzc ← filterNonZero lc.changes lc.categories
  let xlabels := nzc.map (fun c => dgetD lc.class_names c c)
  let yvalues ← mapDget lc.changes nzc
  let colors ← mapDget lc.category_colors nzc
  pure ⟨xlabels, yvalues, colors⟩

/-! ## `CarbonStockAnalyzer` -/

/-- Accumulator pass of decimal-digit parsing: fails at the first
non-digit character. -/
def parseDigitsAux : List Char → ℕ → Option ℕ
  | [], acc => some acc
  | c :: rest, acc =>
      if c.isDigit then parseDigitsAux rest (acc * 10 + (c.toNat - 48))
      else none

/-- A non-empty all-digit string as a natural number. -/
def parseDigits : List Char → Option ℕ
  | [] => none
  | cs => parseDigitsAux cs 0

/-- Unsigned part of Python `float(...)` on plain decimal notation:
`digits`, `digits.digits`, `digits.` or `.digits`. -/
def parseUnsigned (cs : List Char) : Option ℚ :=
  if cs.contains '.' then
    let intPart := cs.takeWhile (fun c => c ≠ '.')
    let fracPart := (cs.dropWhile (fun c => c ≠ '.')).tail
    if fracPart.contains '.' then none
    else if intPart.isEmpty && fracPart.isEmpty then none
    else
      match (if intPart.isEmpty then some 0 else parseDigitsAux intPart 0),
            (if fracPart.isEmpty then some 0 else parseDigitsAux fracPart 0) with
      | some ip, some fp => some ((ip : ℚ) + (fp : ℚ) / (10 ^ fracPart.length))
      | _, _ => none
  else (parseDigits cs).map (fun n => (n : ℚ))

/-- Model of Python `float(value)` as used by `categorize_counts` on
histogram keys (plain decimal literals with an optional sign, which is what
the stringified numeric magnitude keys look like); `none` models the
`ValueError` raised on a non-numeric string. -/
def parseFloat (s : String) : Option ℚ :=
  match s.toList with
  | '-' :: rest => (parseUnsigned rest).map (fun q => -q)
  | '+' :: rest => parseUnsigned rest
  | cs => parseUnsigned cs

/-- The list comprehension `[float(value) for value in data.keys()]`
(line 225): parses every key, raising `ValueError` at the first
non-numeric one. -/
def parseAll : List String → Except PyErr (List ℚ)
  | [] => pure []
  | k :: rest =>
    match parseFloat k with
    | some v => do
        let tail ← parseAll rest
        pure (v :: tail)
    | none => .error (.valueError k)

/-- Embedding of `CarbonStockAnalyzer.categorize_counts` (lines 223–232): parses the
histogram **keys** to numbers and counts how many keys fall in each of the
three threshold buckets `value < -2.5`, `-2.5 ≤ value ≤ 2.5`,
`value > 2.5`.  The histogram's count values are never read. -/
def categorize_counts (data : Hist) : Except PyErr (ℕ × ℕ × ℕ) := do
  let values ← parseAll (keys data)
  let losses := values.countP (fun v => decide (v < -(5/2 : ℚ)))
  let no_change := values.countP (fun v => decide (-(5/2 : ℚ) ≤ v ∧ v ≤ 5/2))
  let gains := values.countP (fun v => decide ((5/2 : ℚ) < v))
  pure (losses, no_change, gains)

/-- The data content of `CarbonStockAnalyzer.get_stackbar_chart_plotly`
(lines 234–276): the three bucket counts (the bar heights) and the
percentage list `[losses/total*100, no_change/total*100, gains/total*100]`
shown as bar text; `total = 0` raises `ZeroDivisionError`. -/
def get_stackbar_chart_plotly (data : Hist) :
    Except PyErr (ℕ × ℕ × ℕ × List ℚ) := do
  let (losses, no_change, gains) ← categorize_counts data
  let total := losses + no_change + gains
  if total = 0 then .error .zeroDivisionError
  else
    pure (losses, no_change, gains,
      [(losses : ℚ) / total * 100, (no_change : ℚ) / total * 100,
       (gains : ℚ) / total * 100])

/-! ## Monad and dictionary lemmas -/

@[simp]
theorem exbind_ok {α β : Type} (a : α) (f : α → Except PyErr β) :
    (Except.ok a >>= f) = f a := rfl

@[simp]
theorem exbind_err {α β : Type} (e : PyErr) (f : α → Except PyErr β) :
    ((Except.error e : Except PyErr α) >>= f) = Except.error e := rfl

@[simp]
theorem expure_eq_ok {α : Type} (a : α) :
    (pure a : Except PyErr α) = Except.ok a := rfl

@[simp]
theorem keys_nil {α : Type} : keys ([] : List (String × α)) = [] := rfl

@[simp]
theorem keys_cons {α : Type} (p : String × α) (rest : List (String × α)) :
    keys (p :: rest) = p.1 :: keys rest := rfl

theorem dget?_mem_keys {α : Type} {m : List (String × α)} {k : String} {v : α}
    (h : dget? m k = some v) : k ∈ keys m := by
  induction m with
  | nil => simp [dget?] at h
  | cons p rest ih =>
    obtain ⟨k', v'⟩ := p
    rw [dget?] at h
    by_cases hk : k' = k
    · subst hk; simp
    · rw [if_neg hk] at h
      simp [ih h]

theorem dget?_isSome_iff {α : Type} (m : List (String × α)) (k : String) :
    (dget? m k).isSome ↔ k ∈ keys m := by
  induction m with
  | nil => simp [dget?]
  | cons p rest ih =>
    obtain ⟨k', v'⟩ := p
    rw [dget?]
    by_cases hk : k' = k
    · subst hk; simp
    · rw [if_neg hk]
      simp [ih, Ne.symm hk]

/-! ## Lemmas about `_prepare_data`'s comprehensions -/

theorem mapLookup_ok_of_forall {m : StrMap} {data : Hist}
    (h : ∀ k ∈ keys data, (dget? m k).isSome) :
    ∃ l, mapLookup m data = .ok l := by
  induction data with
  | nil => exact ⟨[], rfl⟩
  | cons p rest ih =>
    have hp : (dget? m p.1).isSome := h p.1 (by simp)
    obtain ⟨v, hv⟩ := Option.isSome_iff_exists.mp hp
    obtain ⟨tail, htail⟩ := ih (fun k hk => h k (by simp [hk]))
    exact ⟨v :: tail, by simp [mapLookup, hv, htail]⟩

theorem mapLookup_ok_forall {m : StrMap} {data : Hist} {l : List String}
    (h : mapLookup m data = .ok l) : ∀ k ∈ keys data, (dget? m k).isSome := by
  induction data generalizing l with
  | nil => simp
  | cons p rest ih =>
    intro k hk
    rw [mapLookup] at h
    cases hv : dget? m p.1 with
    | none => rw [hv] at h; exact absurd h (by simp)
    | some v =>
      rw [hv] at h
      cases ht : mapLookup m rest with
      | error e => rw [ht] at h; exact absurd h (by simp)
      | ok tail =>
        rcases (by simpa using hk : k = p.1 ∨ k ∈ keys rest) with rfl | hk'
        · simp [hv]
        · exact ih ht k hk'

theorem mapLookup_error_elim {m : StrMap} {data : Hist} {e : PyErr}
    (h : mapLookup m data = .error e) :
    ∃ k, k ∈ keys data ∧ dget? m k = none ∧ e = .keyError k := by
  induction data generalizing e with
  | nil => exact absurd h (by simp [mapLookup])
  | cons p rest ih =>
    rw [mapLookup] at h
    cases hv : dget? m p.1 with
    | none =>
      rw [hv] at h
      have he : PyErr.keyError p.1 = e := by simpa using h
      exact ⟨p.1, by simp, hv, he.symm⟩
    | some v =>
      rw [hv] at h
      cases ht : mapLookup m rest with
      | ok tail => rw [ht] at h; exact absurd h (by simp)
      | error e' =>
        rw [ht] at h
        have he : e' = e := by simpa using h
        obtain ⟨k, hk, hnone, rfl⟩ := ih ht
        exact ⟨k, by simp [hk], hnone, he.symm⟩

theorem mapPercent_ok {total : ℚ} (h : total ≠ 0) (values : List ℚ) :
    mapPercent total values = .ok (values.map (fun v => 100 * v / total)) := by
  induction values with
  | nil => rfl
  | cons v rest ih => simp [mapPercent, h, ih]

theorem mapPercent_zero {values : List ℚ} (h : values ≠ []) :
    mapPercent 0 values = .error .zeroDivisionError := by
  cases values with
  | nil => exact absurd rfl h
  | cons v rest => simp [mapPercent]

theorem sum_map_percent (total : ℚ) (values : List ℚ) :
    (values.map (fun v => 100 * v / total)).sum = 100 * values.sum / total := by
  induction values with
  | nil => simp
  | cons v rest ih =>
    simp only [List.map_cons, List.sum_cons, ih]
    ring

/-! ## Lemmas about `LandcoverComparison` -/

theorem computeChanges_keys {b c : Hist} {l : List String}
    {ch : List (String × ℚ)} (h : computeChanges b c l = .ok ch) :
    keys ch = l := by
  induction l generalizing ch with
  | nil =>
    have : ch = [] := by simpa [computeChanges] using h.symm
    simp [this]
  | cons k rest ih =>
    rw [computeChanges] at h
    cases hv : calculate_change b c k with
    | error e => rw [hv] at h; exact absurd h (by simp)
    | ok v =>
      rw [hv] at h
      cases ht : computeChanges b c rest with
      | error e => rw [ht] at h; exact absurd h (by simp)
      | ok tail =>
        rw [ht] at h
        have : (k, v) :: tail = ch := by simpa using h
        simp [← this, ih ht]

theorem computeChanges_ok_forall {b c : Hist} {l : List String}
    {ch : List (String × ℚ)} (h : computeChanges b c l = .ok ch) :
    ∀ k ∈ l, ∃ v, calculate_change b c k = .ok v := by
  induction l generalizing ch with
  | nil => simp
  | cons k rest ih =>
    intro k' hk'
    rw [computeChanges] at h
    cases hv : calculate_change b c k with
    | error e => rw [hv] at h; exact absurd h (by simp)
    | ok v =>
      rw [hv] at h
      cases ht : computeChanges b c rest with
      | error e => rw [ht] at h; exact absurd h (by simp)
      | ok tail =>
        rcases List.mem_cons.mp hk' with rfl | hmem
        · exact ⟨v, hv⟩
        · exact ih ht k' hmem

theorem mkLandcoverComparison_ok_elim {b c : Hist} {cc cn : StrMap}
    {lc : LandcoverComparison}
    (h : mkLandcoverComparison b c cc cn = .ok lc) :
    computeChanges b c (keys b) = .ok lc.changes ∧
      lc.categories = keys b ∧ lc.landcover_2000 = b := by
  rw [mkLandcoverComparison] at h
  cases hch : computeChanges b c (keys b) with
  | error e => rw [hch] at h; exact absurd h (by simp)
  | ok ch =>
    rw [hch] at h
    have hlc : (⟨b, c, keys b, cc, ch, cn⟩ : LandcoverComparison) = lc := by
      simpa using h
    subst hlc
    exact ⟨rfl, rfl, rfl⟩

theorem filterNonZero_eq_filter {ch : List (String × ℚ)} {l : List String}
    (h : ∀ k ∈ l, (dget? ch k).isSome) :
    filterNonZero ch l =
      .ok (l.filter (fun k => decide ((dget? ch k).getD 0 ≠ 0))) := by
  induction l with
  | nil => rfl
  | cons k rest ih =>
    obtain ⟨v, hv⟩ := Option.isSome_iff_exists.mp (h k (by simp))
    have htail := ih (fun k' hk' => h k' (by simp [hk']))
    by_cases hz : v = 0
    · subst hz
      simp [filterNonZero, dget, hv, htail, List.filter_cons]
    · simp [filterNonZero, dget, hv, htail, List.filter_cons, hz]

/-! ## Claim C4 -/

/-- Claim C4 (amended): the change computation takes its category universe
from the baseline histogram's keys, but a baseline category that is absent
from the comparison histogram makes the comparison-dict subscript raise a
`KeyError`, so the whole `LandcoverComparison` construction fails instead
of zero-filling the missing count. -/
theorem C4_universe_and_missing_key (b c : Hist) (cc cn : StrMap) :
    (∀ lc, mkLandcoverComparison b c cc cn = .ok lc →
      lc.categories = keys b) ∧
    (∀ k, k ∈ keys b → dget? c k = none →
      ∃ e, mkLandcoverComparison b c cc cn = .error e) := by
  constructor
  · intro lc h
    exact (mkLandcoverComparison_ok_elim h).2.1
  · intro k hk hnone
    cases h : mkLandcoverComparison b c cc cn with
    | error e => exact ⟨e, rfl⟩
    | ok lc =>
      obtain ⟨hch, -, -⟩ := mkLandcoverComparison_ok_elim h
      obtain ⟨v, hv⟩ := computeChanges_ok_forall hch k hk
      rw [calculate_change, dget, hnone] at hv
      exact absurd hv (by simp)

/-- Counterexample for C4: with `baseline = {"130": 100}` and an empty
comparison histogram, `calculate_change` raises `KeyError("130")` and the
constructor propagates it — the code does not compute the claimed
`(0 - 100) / 100 * 100 = -100`. -/
theorem C4_counterexample :
    calculate_change [("130", 100)] [] "130" = .error (.keyError "130") ∧
    mkLandcoverComparison [("130", 100)] [] [] [] =
      .error (.keyError "130") :=
  ⟨rfl, rfl⟩

/-- Witness for C4 at `baseline = {"130": 100}`, `comparison = {}`:
the construction fails with some exception. -/
theorem C4_witness :
    ∃ e, mkLandcoverComparison [("130", (100 : ℚ))] [] [] [] = .error e :=
  (C4_universe_and_missing_key [("130", 100)] [] [] []).2 "130"
    (by decide) (by decide)

/-! ## Claim C5 -/

/-- Claim C5: with `baseline = {"130": 100, "190": 50}` and
`comparison = {"130": 120, "190": 50}` the charted series contains only
category `"130"` with value `+20`, while the raw change dict still holds
both `("130", 20)` and `("190", 0)`; and in general, for any successfully
constructed comparison, every baseline category is present in the raw
change dict and a category appears in the filtered series iff its stored
change is non-zero. -/
theorem C5_zero_change_dropped :
    ((mkLandcoverComparison [("130", (100 : ℚ)), ("190", 50)]
        [("130", 120), ("190", 50)] [("130", "#c1"), ("190", "#c2")]
        [("130", "N1"), ("190", "N2")]).map (fun lc => lc.changes) =
        .ok [("130", 20), ("190", 0)] ∧
      (mkLandcoverComparison [("130", (100 : ℚ)), ("190", 50)]
        [("130", 120), ("190", 50)] [("130", "#c1"), ("190", "#c2")]
        [("130", "N1"), ("190", "N2")]).bind generate_comparison_chart =
        .ok ⟨["N1"], [20], ["#c1"]⟩) ∧
    (∀ b c cc cn lc nzc, mkLandcoverComparison b c cc cn = .ok lc →
      filterNonZero lc.changes lc.categories = .ok nzc →
      (∀ k ∈ keys b, (dget? lc.changes k).isSome) ∧
      (∀ k v, dget? lc.changes k = some v → (k ∈ nzc ↔ v ≠ 0))) := by
  constructor
  · exact ⟨by with_unfolding_all rfl, by with_unfolding_all rfl⟩
  · intro b c cc cn lc nzc hmk hf
    obtain ⟨hch, hcat, -⟩ := mkLandcoverComparison_ok_elim hmk
    have hkeys : keys lc.changes = keys b := computeChanges_keys hch
    have hks : ∀ k ∈ lc.categories, (dget? lc.changes k).isSome := by
      intro k hk
      rw [dget?_isSome_iff, hkeys]
      rwa [hcat] at hk
    constructor
    · intro k hk
      rw [dget?_isSome_iff, hkeys]
      exact hk
    · intro k v hv
      have hfe := filterNonZero_eq_filter hks
      rw [hf] at hfe
      have hnzc : nzc = lc.categories.filter
          (fun k' => decide ((dget? lc.changes k').getD 0 ≠ 0)) := by
        simpa using hfe
      have hkmem : k ∈ lc.categories := by
        rw [hcat, ← hkeys]
        exact dget?_mem_keys hv
      constructor
      · intro hin
        rw [hnzc] at hin
        have hpred := (List.mem_filter.mp hin).2
        rw [hv] at hpred
        simpa using hpred
      · intro hvne
        rw [hnzc]
        refine List.mem_filter.mpr ⟨hkmem, ?_⟩
        rw [hv]
        simpa using hvne

/-- Witness for C5's general part at the claim's concrete input: the
zero-change category `"190"` is not in the filtered series `["130"]`. -/
theorem C5_witness : "190" ∈ (["130"] : List String) ↔ (0 : ℚ) ≠ 0 :=
  (C5_zero_change_dropped.2 [("130", 100), ("190", 50)]
      [("130", 120), ("190", 50)] [("130", "#c1"), ("190", "#c2")]
      [("130", "N1"), ("190", "N2")]
      ⟨[("130", 100), ("190", 50)], [("130", 120), ("190", 50)],
        ["130", "190"], [("130", "#c1"), ("190", "#c2")],
        [("130", 20), ("190", 0)], [("130", "N1"), ("190", "N2")]⟩
      ["130"] (by with_unfolding_all rfl) (by with_unfolding_all rfl)).2
    "190" 0 rfl

/-! ## Claim C8 -/

/-- Claim C8: the filtered series of `generate_comparison_chart` is exactly
the baseline key list filtered by non-zero stored change, in baseline key
order; in particular it is a sublist of the baseline keys. -/
theorem C8_output_order (b c : Hist) (cc cn : StrMap)
    (lc : LandcoverComparison) (nzc : List String)
    (hmk : mkLandcoverComparison b c cc cn = .ok lc)
    (hf : filterNonZero lc.changes lc.categories = .ok nzc) :
    nzc = (keys b).filter
        (fun k => decide ((dget? lc.changes k).getD 0 ≠ 0)) ∧
    nzc.Sublist (keys b) := by
  obtain ⟨hch, hcat, -⟩ := mkLandcoverComparison_ok_elim hmk
  have hkeys : keys lc.changes = keys b := computeChanges_keys hch
  have hks : ∀ k ∈ lc.categories, (dget? lc.changes k).isSome := by
    intro k hk
    rw [dget?_isSome_iff, hkeys]
    rwa [hcat] at hk
  have hfe := filterNonZero_eq_filter hks
  rw [hf, hcat] at hfe
  have hn : nzc = (keys b).filter
      (fun k => decide ((dget? lc.changes k).getD 0 ≠ 0)) := by
    simpa using hfe
  exact ⟨hn, hn ▸ List.filter_sublist _⟩

/-- Witness for C8 at `baseline = {"130": 100, "190": 50}`,
`comparison = {"130": 120, "190": 50}`: the surviving series `["130"]` is
the baseline key order restricted to non-zero changes. -/
theorem C8_witness :
    (["130"] : List String) =
      (keys [("130", (100 : ℚ)), ("190", 50)]).filter
        (fun k => decide ((dget?
          (⟨[("130", 100), ("190", 50)], [("130", 120), ("190", 50)],
            ["130", "190"], [("130", "#c1"), ("190", "#c2")],
            [("130", 20), ("190", 0)],
            [("130", "N1"), ("190", "N2")]⟩ : LandcoverComparison).changes
          k).getD 0 ≠ 0)) ∧
    (["130"] : List String).Sublist (keys [("130", (100 : ℚ)), ("190", 50)]) :=
  C8_output_order [("130", 100), ("190", 50)] [("130", 120), ("190", 50)]
    [("130", "#c1"), ("190", "#c2")] [("130", "N1"), ("190", "N2")]
    ⟨[("130", 100), ("190", 50)], [("130", 120), ("190", 50)],
      ["130", "190"], [("130", "#c1"), ("190", "#c2")],
      [("130", 20), ("190", 0)], [("130", "N1"), ("190", "N2")]⟩
    ["130"] (by with_unfolding_all rfl) (by with_unfolding_all rfl)

/-! ## Claim C1 -/

/-- Claim C1: for every non-empty histogram whose counts have a positive
total and whose every key is mapped by both the class-name and class-color
dicts, `LandcoverAnalyzer._prepare_data` succeeds, each percentage is
`100 * count / total`, and the percentages sum to exactly `100` (hence in
particular within `1e-6` relative tolerance of `100`). -/
theorem C1_percentages_sum_100 (data : Hist) (class_names class_colors : StrMap)
    (_hne : data ≠ [])
    (hnames : ∀ k ∈ keys data, (dget? class_names k).isSome)
    (hcolors : ∀ k ∈ keys data, (dget? class_colors k).isSome)
    (hpos : 0 < (data.map Prod.snd).sum) :
    ∃ labels colors,
      prepare_data data class_names class_colors =
        .ok (labels,
             (data.map Prod.snd).map
               (fun v => 100 * v / (data.map Prod.snd).sum),
             colors) ∧
      ((data.map Prod.snd).map
          (fun v => 100 * v / (data.map Prod.snd).sum)).sum = 100 := by
  obtain ⟨labels, hl⟩ := mapLookup_ok_of_forall hnames
  obtain ⟨colors, hc⟩ := mapLookup_ok_of_forall hcolors
  have htz : (data.map Prod.snd).sum ≠ 0 := ne_of_gt hpos
  refine ⟨labels, colors, ?_, ?_⟩
  · simp [prepare_data, hl, hc, mapPercent_ok htz]
  · rw [sum_map_percent, mul_div_assoc, div_self htz, mul_one]

/-- Witness for C1 at the histogram `{"10": 60, "20": 40}` with both keys
mapped: normalization succeeds and the percentages sum to 100. -/
theorem C1_witness :
    ∃ labels colors,
      prepare_data [("10", (60 : ℚ)), ("20", 40)]
          [("10", "Forest"), ("20", "Water")]
          [("10", "#11aa00"), ("20", "#0044ff")] =
        .ok (labels,
             (List.map Prod.snd [("10", (60 : ℚ)), ("20", 40)]).map
               (fun v => 100 * v /
                 (List.map Prod.snd [("10", (60 : ℚ)), ("20", 40)]).sum),
             colors) ∧
      ((List.map Prod.snd [("10", (60 : ℚ)), ("20", 40)]).map
          (fun v => 100 * v /
            (List.map Prod.snd [("10", (60 : ℚ)), ("20", 40)]).sum)).sum = 100 :=
  C1_percentages_sum_100 [("10", 60), ("20", 40)]
    [("10", "Forest"), ("20", "Water")] [("10", "#11aa00"), ("20", "#0044ff")]
    (by simp) (by decide) (by decide) (by norm_num)

/-! ## Claim C2 -/

/-- Counterexample for C2: on `{"-10": 5, "0": 3, "10": 2}` the code's
`categorize_counts` counts histogram *keys*, not pixel counts, so it returns
`(1, 1, 1)` and not the claimed `(Loss, NoChange, Gain) = (5, 3, 2)`. -/
theorem C2_counterexample :
    categorize_counts [("-10", 5), ("0", 3), ("10", 2)] = .ok (1, 1, 1) ∧
    categorize_counts [("-10", 5), ("0", 3), ("10", 2)] ≠ .ok (5, 3, 2) := by
  constructor
  · with_unfolding_all rfl
  · intro h
    have h111 : categorize_counts [("-10", 5), ("0", 3), ("10", 2)] =
        .ok (1, 1, 1) := by with_unfolding_all rfl
    rw [h111] at h
    exact absurd h (by decide)

/-- Claim C2 (amended): on `{"-10": 5, "0": 3, "10": 2}` with thresholds
`(-2.5, 2.5)`, `categorize_counts` buckets the *category keys*, giving
`Loss = 1`, `NoChange = 1`, `Gain = 1` with grand total 3, and the stacked
bar chart shows each bucket as `100/3` percent. -/
theorem C2_amended_buckets :
    categorize_counts [("-10", 5), ("0", 3), ("10", 2)] = .ok (1, 1, 1) ∧
    get_stackbar_chart_plotly [("-10", 5), ("0", 3), ("10", 2)] =
      .ok (1, 1, 1, [100 / 3, 100 / 3, 100 / 3]) :=
  ⟨by with_unfolding_all rfl, by with_unfolding_all rfl⟩

/-! ## Claim C3 -/

/-- Claim C3 (evaluation at the failing input): with
`baseline = {"130": 0}` and `comparison = {"130": 10}`, the
`LandcoverComparison` constructor propagates an uncaught
`ZeroDivisionError` from `calculate_change` — the code crashes instead of
signalling a distinct `UndefinedChange` condition. -/
theorem C3_zero_baseline_crash :
    calculate_change [("130", 0)] [("130", 10)] "130" =
      .error .zeroDivisionError ∧
    mkLandcoverComparison [("130", 0)] [("130", 10)] [] [] =
      .error .zeroDivisionError :=
  ⟨rfl, rfl⟩

/-! ## Claim C6 -/

/-- Claim C6: when some histogram key is missing from the class-name or the
class-color dict, `_prepare_data` raises a `KeyError` naming an unmapped
key (the code's form of the spec's `MissingClassMetadata` error); it never
silently drops the unmapped code and returns chart data. -/
theorem C6_missing_metadata_error (data : Hist)
    (class_names class_colors : StrMap)
    (h : ∃ k ∈ keys data,
      dget? class_names k = none ∨ dget? class_colors k = none) :
    ∃ k', (dget? class_names k' = none ∨ dget? class_colors k' = none) ∧
      prepare_data data class_names class_colors =
        .error (.keyError k') := by
  obtain ⟨k, hk, hdisj⟩ := h
  cases hn : mapLookup class_names data with
  | error e =>
    obtain ⟨k', hk', hnone, rfl⟩ := mapLookup_error_elim hn
    exact ⟨k', Or.inl hnone, by simp [prepare_data, hn]⟩
  | ok labels =>
    have hnames := mapLookup_ok_forall hn
    have hcol : dget? class_colors k = none := by
      rcases hdisj with hd | hd
      · exact absurd (hnames k hk) (by simp [hd])
      · exact hd
    cases hc : mapLookup class_colors data with
    | error e =>
      obtain ⟨k', hk', hnone, rfl⟩ := mapLookup_error_elim hc
      exact ⟨k', Or.inr hnone, by simp [prepare_data, hn, hc]⟩
    | ok colors =>
      exact absurd (mapLookup_ok_forall hc k hk) (by simp [hcol])

/-- Witness for C6 at `H = {"999": 10}` with empty metadata dicts:
`_prepare_data` fails with a `KeyError` on an unmapped key. -/
theorem C6_witness :
    ∃ k', (dget? ([] : StrMap) k' = none ∨ dget? ([] : StrMap) k' = none) ∧
      prepare_data [("999", (10 : ℚ))] [] [] = .error (.keyError k') :=
  C6_missing_metadata_error [("999", 10)] [] []
    ⟨"999", by decide, Or.inl rfl⟩

/-! ## Claim C7 -/

/-- Counterexample for C7: the empty histogram has total count 0, yet
`_prepare_data` does not fail — the three comprehensions are all empty, the
division is never executed, and it returns empty labels, percentages and
colors. -/
theorem C7_counterexample :
    (List.map Prod.snd ([] : Hist)).sum = 0 ∧
      prepare_data [] [] [] = .ok ([], [], []) :=
  ⟨rfl, rfl⟩

/-- Claim C7 (amended): for every **non-empty** histogram whose counts sum
to 0, `_prepare_data` signals an error (a `KeyError` if some key is
unmapped, otherwise the `ZeroDivisionError` raised by
`100 * value / total`) rather than silently emitting percentages; the
empty histogram instead returns empty output without any error. -/
theorem C7_zero_total_error (data : Hist) (class_names class_colors : StrMap)
    (hne : data ≠ []) (hz : (data.map Prod.snd).sum = 0) :
    ∃ e, prepare_data data class_names class_colors = .error e := by
  cases hn : mapLookup class_names data with
  | error e => exact ⟨e, by simp [prepare_data, hn]⟩
  | ok labels =>
    cases hc : mapLookup class_colors data with
    | error e => exact ⟨e, by simp [prepare_data, hn, hc]⟩
    | ok colors =>
      have hvne : data.map Prod.snd ≠ [] := by
        simpa using hne
      refine ⟨.zeroDivisionError, ?_⟩
      simp [prepare_data, hn, hc, hz, mapPercent_zero hvne]

/-- Witness for C7 at the non-empty histogram `{"10": 0}` with mapped
metadata: `_prepare_data` fails (with the division-by-zero error). -/
theorem C7_witness :
    ∃ e, prepare_data [("10", (0 : ℚ))] [("10", "Forest")]
      [("10", "#11aa00")] = .error e :=
  C7_zero_total_error [("10", 0)] [("10", "Forest")] [("10", "#11aa00")]
    (by simp) (by simp)

/-! ## Lemmas about `categorize_counts` -/

theorem parseAll_ok_eq {l : List String} {vs : List ℚ}
    (h : parseAll l = .ok vs) : vs = l.filterMap parseFloat := by
  induction l generalizing vs with
  | nil =>
    have : vs = [] := by simpa [parseAll] using h.symm
    simp [this]
  | cons k rest ih =>
    rw [parseAll] at h
    cases hk : parseFloat k with
    | none => rw [hk] at h; exact absurd h (by simp)
    | some v =>
      rw [hk] at h
      cases ht : parseAll rest with
      | error e => rw [ht] at h; exact absurd h (by simp)
      | ok tail =>
        rw [ht] at h
        have : v :: tail = vs := by simpa using h
        simp [← this, List.filterMap_cons, hk, ih ht]

theorem parseAll_ok_forall {l : List String} {vs : List ℚ}
    (h : parseAll l = .ok vs) : ∀ k ∈ l, (parseFloat k).isSome := by
  induction l generalizing vs with
  | nil => simp
  | cons k rest ih =>
    intro k' hk'
    rw [parseAll] at h
    cases hk : parseFloat k with
    | none => rw [hk] at h; exact absurd h (by simp)
    | some v =>
      rw [hk] at h
      cases ht : parseAll rest with
      | error e => rw [ht] at h; exact absurd h (by simp)
      | ok tail =>
        rcases List.mem_cons.mp hk' with rfl | hmem
        · simp [hk]
        · exact ih ht k' hmem

theorem parseAll_ok_of_forall {l : List String}
    (h : ∀ k ∈ l, (parseFloat k).isSome) :
    parseAll l = .ok (l.filterMap parseFloat) := by
  induction l with
  | nil => rfl
  | cons k rest ih =>
    obtain ⟨v, hv⟩ := Option.isSome_iff_exists.mp (h k (by simp))
    have htail := ih (fun k' hk' => h k' (by simp [hk']))
    simp [parseAll, hv, htail, List.filterMap_cons]

theorem parseAll_length {l : List String} {vs : List ℚ}
    (h : parseAll l = .ok vs) : vs.length = l.length := by
  induction l generalizing vs with
  | nil =>
    have : vs = [] := by simpa [parseAll] using h.symm
    simp [this]
  | cons k rest ih =>
    rw [parseAll] at h
    cases hk : parseFloat k with
    | none => rw [hk] at h; exact absurd h (by simp)
    | some v =>
      rw [hk] at h
      cases ht : parseAll rest with
      | error e => rw [ht] at h; exact absurd h (by simp)
      | ok tail =>
        rw [ht] at h
        have : v :: tail = vs := by simpa using h
        simp [← this, ih ht]

theorem countP_buckets (values : List ℚ) :
    values.countP (fun v => decide (v < -(5 / 2 : ℚ))) +
      values.countP (fun v => decide (-(5 / 2 : ℚ) ≤ v ∧ v ≤ 5 / 2)) +
      values.countP (fun v => decide ((5 / 2 : ℚ) < v)) =
      values.length := by
  induction values with
  | nil => rfl
  | cons v rest ih =>
    rw [List.length_cons]
    rcases lt_or_le v (-(5 / 2 : ℚ)) with h1 | h1
    · rw [List.countP_cons_of_pos _ _ (by simpa using h1),
        List.countP_cons_of_neg _ _ (by
          simp only [decide_eq_true_eq, not_and]
          intro hle
          exact absurd h1 (not_lt.mpr hle)),
        List.countP_cons_of_neg _ _ (by
          simp only [decide_eq_true_eq, not_lt]
          linarith)]
      omega
    · rcases le_or_lt v (5 / 2 : ℚ) with h2 | h2
      · rw [List.countP_cons_of_neg _ _ (by simpa using h1),
          List.countP_cons_of_pos _ _ (by simp [h1, h2]),
          List.countP_cons_of_neg _ _ (by simpa using h2)]
        omega
      · rw [List.countP_cons_of_neg _ _ (by simpa using h1),
          List.countP_cons_of_neg _ _ (by
            simp only [decide_eq_true_eq, not_and]
            intro hle
            exact not_le.mpr h2),
          List.countP_cons_of_pos _ _ (by simpa using h2)]
        omega

theorem categorize_counts_ok_elim {data : Hist} {l n g : ℕ}
    (h : categorize_counts data = .ok (l, n, g)) :
    ∃ vs, parseAll (keys data) = .ok vs ∧
      l = vs.countP (fun v => decide (v < -(5 / 2 : ℚ))) ∧
      n = vs.countP (fun v => decide (-(5 / 2 : ℚ) ≤ v ∧ v ≤ 5 / 2)) ∧
      g = vs.countP (fun v => decide ((5 / 2 : ℚ) < v)) := by
  rw [categorize_counts] at h
  cases hp : parseAll (keys data) with
  | error e => rw [hp] at h; exact absurd h (by simp)
  | ok vs =>
    rw [hp] at h
    simp only [exbind_ok] at h
    have h3 : (vs.countP (fun v => decide (v < -(5 / 2 : ℚ))),
        vs.countP (fun v => decide (-(5 / 2 : ℚ) ≤ v ∧ v ≤ 5 / 2)),
        vs.countP (fun v => decide ((5 / 2 : ℚ) < v))) = (l, n, g) :=
      Except.ok.inj h
    simp only [Prod.mk.injEq] at h3
    exact ⟨vs, rfl, h3.1.symm, h3.2.1.symm, h3.2.2.symm⟩

/-! ## Claim C9 -/

/-- Claim C9: whenever `categorize_counts` succeeds (all keys parse as
numbers), the three buckets partition the key set —
`losses + no_change + gains` equals the number of (distinct) keys — and on
a non-empty histogram the three percentages of
`get_stackbar_chart_plotly` sum to exactly 100. -/
theorem C9_buckets_partition (data : Hist) (l n g : ℕ)
    (_hnd : (keys data).Nodup)
    (hcat : categorize_counts data = .ok (l, n, g)) :
    l + n + g = (keys data).length ∧
    (data ≠ [] →
      ∃ p₁ p₂ p₃,
        get_stackbar_chart_plotly data = .ok (l, n, g, [p₁, p₂, p₃]) ∧
        p₁ + p₂ + p₃ = 100) := by
  obtain ⟨vs, hp, hl, hn, hg⟩ := categorize_counts_ok_elim hcat
  have hlen := parseAll_length hp
  have hsum : l + n + g = (keys data).length := by
    rw [hl, hn, hg, ← hlen]
    exact countP_buckets vs
  refine ⟨hsum, fun hne => ?_⟩
  have hkne : (keys data).length ≠ 0 := by
    simpa [keys] using hne
  have htot : l + n + g ≠ 0 := by rw [hsum]; exact hkne
  have hQ : ((l + n + g : ℕ) : ℚ) ≠ 0 := Nat.cast_ne_zero.mpr htot
  refine ⟨(l : ℚ) / ((l + n + g : ℕ) : ℚ) * 100,
          (n : ℚ) / ((l + n + g : ℕ) : ℚ) * 100,
          (g : ℚ) / ((l + n + g : ℕ) : ℚ) * 100, ?_, ?_⟩
  · rw [get_stackbar_chart_plotly, hcat]
    simp [htot]
    omega
  · push_cast at hQ ⊢
    field_simp
    ring

/-- Witness for C9 at `{"-10": 5, "0": 3, "10": 2}`: the buckets
`(1, 1, 1)` partition the 3 keys and the stackbar percentages sum
to 100. -/
theorem C9_witness :
    1 + 1 + 1 = (keys [("-10", (5 : ℚ)), ("0", 3), ("10", 2)]).length ∧
    ([("-10", (5 : ℚ)), ("0", 3), ("10", 2)] ≠ ([] : Hist) →
      ∃ p₁ p₂ p₃,
        get_stackbar_chart_plotly [("-10", (5 : ℚ)), ("0", 3), ("10", 2)] =
          .ok (1, 1, 1, [p₁, p₂, p₃]) ∧
        p₁ + p₂ + p₃ = 100) :=
  C9_buckets_partition [("-10", 5), ("0", 3), ("10", 2)] 1 1 1
    (by decide) (by with_unfolding_all rfl)

/-! ## Claim C10 -/

/-- Claim C10: `categorize_counts` reads only the histogram's keys — two
histograms with the same key set (in any order, with any pixel counts)
that classify successfully yield identical `(losses, no_change, gains)`
triples. -/
theorem C10_counts_ignore_values (d1 d2 : Hist) (t : ℕ × ℕ × ℕ)
    (h1 : (keys d1).Nodup) (h2 : (keys d2).Nodup)
    (hmem : ∀ k, k ∈ keys d1 ↔ k ∈ keys d2)
    (hok : categorize_counts d1 = .ok t) :
    categorize_counts d2 = .ok t := by
  obtain ⟨l, n, g⟩ := t
  obtain ⟨vs, hp, hl, hn, hg⟩ := categorize_counts_ok_elim hok
  have hall1 := parseAll_ok_forall hp
  have hall2 : ∀ k ∈ keys d2, (parseFloat k).isSome :=
    fun k hk => hall1 k ((hmem k).mpr hk)
  have hveq : vs = (keys d1).filterMap parseFloat := parseAll_ok_eq hp
  have hperm : (keys d1).Perm (keys d2) := by
    refine List.perm_of_nodup_nodup_toFinset_eq h1 h2 ?_
    ext a
    simp only [List.mem_toFinset]
    exact hmem a
  have hvperm : vs.Perm ((keys d2).filterMap parseFloat) := by
    rw [hveq]
    exact hperm.filterMap parseFloat
  rw [categorize_counts, parseAll_ok_of_forall hall2]
  simp only [exbind_ok, expure_eq_ok]
  rw [← hvperm.countP_eq, ← hvperm.countP_eq, ← hvperm.countP_eq,
    ← hl, ← hn, ← hg]

/-- Witness for C10: `{"-10": 5, "0": 3}` and `{"0": 99, "-10": 7}` share
the key set but not the counts, and both classify to `(1, 1, 0)`. -/
theorem C10_witness :
    categorize_counts [("0", (99 : ℚ)), ("-10", 7)] = .ok (1, 1, 0) :=
  C10_counts_ignore_values [("-10", 5), ("0", 3)] [("0", 99), ("-10", 7)]
    (1, 1, 0) (by decide) (by decide)
    (by intro k; simp [keys, or_comm])
    (by with_unfolding_all rfl)

end SciVizz
